import Mathlib

/-!
# Verification of the Govee BLE lights protocol implementation

Shallow embedding of the repository's packet codec (`protocol.py`), the
multi-frame fragmenter (`govee_ble.py`), the connection coordinator's retry
loop (`coordinator.py`), and the Kelvin-to-RGB conversion, together with
theorems settling the specification's claims about them.

Conventions:
* Python byte buffers (`bytes` / `bytearray` / `array.array('B')`) are
  `List Nat` whose elements are intended to be `< 256`.
* Python `int` inputs are `Int` (so negative and wider-than-a-byte callers
  can be discussed); a construction that raises in Python is `none`.
* Python float arithmetic is modelled over `ℝ`, and `int()` truncation of
  the (here always nonnegative) channel values is `Int.floor`.
-/

namespace Govee

/-- `xor_checksum` from `protocol.py`: XOR all bytes together. -/
def xor_checksum (data : List Nat) : Nat :=
  data.foldl (fun checksum b => checksum ^^^ b) 0

/-- A Python `int` that a `bytearray` accepts as an element: `0 ≤ b < 256`. -/
def isByte (b : Int) : Bool := decide (0 ≤ b) && decide (b < 256)

/-- `build_packet` from `protocol.py`.

```python
data = bytearray([cmd_type, action] + params)
data = data[:19]  # truncate if too long
while len(data) < 19:
    data.append(0x00)
data.append(xor_checksum(data))
return bytes(data)
```

`none` models the `ValueError` that `bytearray([cmd_type, action] + params)`
raises when any element lies outside `0..255` (note: the `bytearray` is
constructed from the *untruncated* list, so validation happens before the
`[:19]` truncation). -/
def build_packet (cmd_type action : Int) (params : List Int) : Option (List Nat) :=
  if (cmd_type :: action :: params).all isByte then
    let data := ((cmd_type :: action :: params).map Int.toNat).take 19
    let data := data ++ List.replicate (19 - data.length) 0
    some (data ++ [xor_checksum data])
  else none

/-- `build_power` from `protocol.py`. -/
def build_power (on' : Bool) : Option (List Nat) :=
  build_packet 0x33 0x01 [if on' then 0x01 else 0x00]

/-- `build_brightness` from `protocol.py` (clamps to the 0-100 percent scale). -/
def build_brightness (percent : Int) : Option (List Nat) :=
  let percent := max 0 (min 100 percent)
  build_packet 0x33 0x04 [percent]

/-- `build_color_rgb` from `protocol.py` (clamps each channel to 0-255). -/
def build_color_rgb (r g b : Int) : Option (List Nat) :=
  let r := max 0 (min 255 r)
  let g := max 0 (min 255 g)
  let b := max 0 (min 255 b)
  build_packet 0x33 0x05 [0x15, 0x01, r, g, b, 0x00, 0x00, 0x00, 0x00, 0x00, 0xFF, 0x7F]

/-- `build_scene` from `protocol.py`: no clamping or masking of `scene_id`. -/
def build_scene (scene_id : Int) : Option (List Nat) :=
  build_packet 0x33 0x05 [0x04, scene_id]

/-- `build_music_mode` from `protocol.py`: no clamping or masking of
`mode_id` or `sensitivity` (Python default `sensitivity=0x63`). -/
def build_music_mode (mode_id : Int) (sensitivity : Int) : Option (List Nat) :=
  build_packet 0x33 0x05 [0x13, mode_id, sensitivity]

/-- XOR-folding a list and then its own checksum yields zero. -/
theorem xor_checksum_append_self (l : List Nat) :
    xor_checksum (l ++ [xor_checksum l]) = 0 := by
  unfold xor_checksum
  rw [List.foldl_append]
  simp

/-- The padded 19-byte body built by `build_packet` always has length 19. -/
theorem build_packet_body_length (l : List Nat) :
    (l.take 19 ++ List.replicate (19 - (l.take 19).length) 0).length = 19 := by
  simp [List.length_take]

/-- Whenever the `bytearray` construction succeeds, `build_packet` returns a
20-byte frame whose XOR over all 20 bytes is 0. -/
theorem build_packet_valid (cmd_type action : Int) (params : List Int)
    (h : (cmd_type :: action :: params).all isByte = true) :
    ∃ frame, build_packet cmd_type action params = some frame ∧
      frame.length = 20 ∧ xor_checksum frame = 0 := by
  unfold build_packet
  rw [h]
  simp only [if_pos]
  refine ⟨_, rfl, ?_, xor_checksum_append_self _⟩
  rw [List.length_append, build_packet_body_length, List.length_singleton]

/-- C1: for byte-valued `cmd_type`, `action` and `params` with
`len(params) ≤ 17`, `build_packet` succeeds, the frame is exactly 20 bytes,
and the XOR over all 20 bytes is 0 (byte 19 is the XOR of bytes 0..18, since
XOR-folding the whole frame cancels the stored checksum exactly when the two
agree). -/
theorem build_packet_length_and_checksum (cmd_type action : Int) (params : List Int)
    (hct : isByte cmd_type = true) (ha : isByte action = true)
    (hps : params.all isByte = true) (hlen : params.length ≤ 17) :
    ∃ frame, build_packet cmd_type action params = some frame ∧
      frame.length = 20 ∧ xor_checksum frame = 0 :=
  build_packet_valid cmd_type action params
    (by rw [List.all_cons, List.all_cons, hct, ha, hps]; rfl)

/-- Witness for C1 at a concrete input. -/
theorem build_packet_length_and_checksum_witness :
    ∃ frame, build_packet 0x33 0x01 [0x01] = some frame ∧
      frame.length = 20 ∧ xor_checksum frame = 0 :=
  build_packet_length_and_checksum 0x33 0x01 [0x01]
    (by decide) (by decide) (by decide) (by decide)

/-- Taking 19 of a list with two explicit heads takes 17 of the tail. -/
theorem take19_cons2 (x y : Nat) (l : List Nat) :
    (x :: y :: l).take 19 = x :: y :: l.take 17 := rfl

/-- C5: for byte-valued `params` longer than 17, `build_packet` does not
fail and returns the same frame as on the first 17 elements of `params`
(the payload is silently truncated by `data[:19]`). -/
theorem build_packet_truncates (cmd_type action : Int) (params : List Int)
    (hps : params.all isByte = true) (hlen : 17 < params.length) :
    build_packet cmd_type action params
      = build_packet cmd_type action (params.take 17) := by
  have htk : (params.take 17).all isByte = true := by
    rw [List.all_eq_true] at hps ⊢
    exact fun b hb => hps b (List.mem_of_mem_take hb)
  have hdata : ((cmd_type :: action :: params.take 17).map Int.toNat).take 19
      = ((cmd_type :: action :: params).map Int.toNat).take 19 := by
    simp only [List.map_cons, take19_cons2]
    simp [List.map_take, List.take_take]
  unfold build_packet
  rw [List.all_cons, List.all_cons, List.all_cons, List.all_cons, hps, htk,
    Bool.and_true]
  by_cases h : (isByte cmd_type && isByte action) = true
  · rw [if_pos h, if_pos h, hdata]
  · rw [if_neg h, if_neg h]

/-- Witness for C5 at a concrete 18-element payload. -/
theorem build_packet_truncates_witness :
    build_packet 0x33 0x04 (List.replicate 18 7)
      = build_packet 0x33 0x04 ((List.replicate 18 7).take 17) :=
  build_packet_truncates 0x33 0x04 (List.replicate 18 7) (by decide) (by decide)

/-- C6 counterexample: `build_packet` does not mask a wide command type to a
byte; it fails (Python `ValueError`) where the masked call succeeds. -/
theorem build_packet_no_masking_cex :
    build_packet 256 0x01 [] ≠ build_packet (256 % 256) 0x01 [] := by decide

/-- C6 amended: `build_packet` succeeds exactly on byte-valued command/action
values (where masking with `& 0xFF` is a no-op); a command type or action
outside `0..255` makes the `bytearray` constructor raise `ValueError`, i.e.
the value is rejected, not masked. -/
theorem build_packet_mask_amended (cmd_type action : Int) (params : List Int)
    (hps : params.all isByte = true) :
    (isByte cmd_type = true → isByte action = true →
      (build_packet cmd_type action params).isSome = true ∧
      build_packet cmd_type action params
        = build_packet (cmd_type % 256) (action % 256) params) ∧
    (isByte cmd_type = false ∨ isByte action = false →
      build_packet cmd_type action params = none) := by
  constructor
  · intro h1 h2
    have h1' : 0 ≤ cmd_type ∧ cmd_type < 256 := by
      simpa [isByte] using h1
    have h2' : 0 ≤ action ∧ action < 256 := by
      simpa [isByte] using h2
    rw [Int.emod_eq_of_lt h1'.1 h1'.2, Int.emod_eq_of_lt h2'.1 h2'.2]
    refine ⟨?_, rfl⟩
    obtain ⟨f, hf, -, -⟩ := build_packet_valid cmd_type action params
      (by rw [List.all_cons, List.all_cons, h1, h2, hps]; rfl)
    rw [hf]
    rfl
  · intro h
    unfold build_packet
    rcases h with h | h <;> rw [List.all_cons, List.all_cons, h] <;> simp

/-- Witness for C6 amended at a concrete byte-valued input. -/
theorem build_packet_mask_amended_witness :
    (build_packet 0x33 0x05 []).isSome = true ∧
      build_packet 0x33 0x05 [] = build_packet (0x33 % 256) (0x05 % 256) [] :=
  (build_packet_mask_amended 0x33 0x05 [] (by decide)).1 (by decide) (by decide)

/-- C10: `build_scene` and `build_music_mode` pass their numeric inputs to
`build_packet` without clamping or masking: byte-valued ids yield a valid
checksummed 20-byte frame, while any id outside `0..255` makes the builder
raise (`none`); by contrast `build_brightness` and `build_color_rgb` clamp
and therefore never fail. -/
theorem scene_music_no_clamp (scene_id mode_id sensitivity : Int) :
    (isByte scene_id = true →
      ∃ f, build_scene scene_id = some f ∧ f.length = 20 ∧ xor_checksum f = 0) ∧
    (isByte scene_id = false → build_scene scene_id = none) ∧
    (isByte mode_id = true → isByte sensitivity = true →
      ∃ f, build_music_mode mode_id sensitivity = some f ∧
        f.length = 20 ∧ xor_checksum f = 0) ∧
    (isByte mode_id = false ∨ isByte sensitivity = false →
      build_music_mode mode_id sensitivity = none) ∧
    (∀ percent : Int, (build_brightness percent).isSome = true) ∧
    (∀ r g b : Int, (build_color_rgb r g b).isSome = true) := by
  have hclamp : ∀ (lo hi x : Int), 0 ≤ lo → hi < 256 → lo ≤ hi →
      isByte (max lo (min hi x)) = true := by
    intro lo hi x hlo hhi hlohi
    simp only [isByte, Bool.and_eq_true, decide_eq_true_eq]
    omega
  refine ⟨?_, ?_, ?_, ?_, ?_, ?_⟩
  · intro hs
    exact build_packet_valid 0x33 0x05 [0x04, scene_id]
      (by rw [List.all_cons, List.all_cons, List.all_cons, List.all_cons, hs]; rfl)
  · intro hs
    unfold build_scene build_packet
    rw [List.all_cons, List.all_cons, List.all_cons, List.all_cons, hs]
    simp
  · intro hm hse
    exact build_packet_valid 0x33 0x05 [0x13, mode_id, sensitivity]
      (by rw [List.all_cons, List.all_cons, List.all_cons, List.all_cons,
            List.all_cons, hm, hse]; rfl)
  · intro h
    unfold build_music_mode build_packet
    rcases h with h | h <;>
      rw [List.all_cons, List.all_cons, List.all_cons, List.all_cons,
        List.all_cons, h] <;> simp
  · intro percent
    obtain ⟨f, hf, -, -⟩ := build_packet_valid 0x33 0x04 [max 0 (min 100 percent)]
      (by rw [List.all_cons, List.all_cons, List.all_cons,
            hclamp 0 100 percent (by decide) (by decide) (by decide)]; rfl)
    unfold build_brightness
    rw [hf]
    rfl
  · intro r g b
    obtain ⟨f, hf, -, -⟩ := build_packet_valid 0x33 0x05
      [0x15, 0x01, max 0 (min 255 r), max 0 (min 255 g), max 0 (min 255 b),
        0x00, 0x00, 0x00, 0x00, 0x00, 0xFF, 0x7F]
      (by
        have hr := hclamp 0 255 r (by decide) (by decide) (by decide)
        have hg := hclamp 0 255 g (by decide) (by decide) (by decide)
        have hb := hclamp 0 255 b (by decide) (by decide) (by decide)
        simp only [List.all_cons, List.all_nil, hr, hg, hb]
        decide)
    unfold build_color_rgb
    rw [hf]
    rfl

/-- Witness for C10 at concrete ids (valid and out-of-range cases). -/
theorem scene_music_no_clamp_witness :
    (∃ f, build_scene 0x16 = some f ∧ f.length = 20 ∧ xor_checksum f = 0) ∧
      build_scene 256 = none ∧
      (∃ f, build_music_mode 0x03 0x63 = some f ∧
        f.length = 20 ∧ xor_checksum f = 0) ∧
      build_music_mode (-1) 0x63 = none :=
  ⟨(scene_music_no_clamp 0x16 0x03 0x63).1 (by decide),
   (scene_music_no_clamp 256 0x03 0x63).2.1 (by decide),
   (scene_music_no_clamp 0x16 0x03 0x63).2.2.1 (by decide) (by decide),
   (scene_music_no_clamp 0x16 (-1) 0x63).2.2.2.1 (Or.inl (by decide))⟩

/-! ## The fragmenter (`govee_ble.py`)

`prepare_multi_packet` manipulates `array.array('B')` buffers through index
and slice assignment, so we first embed Python's sequence-slice semantics
(step 1): negative indices count from the end, boundaries are clamped to
`[0, len]`, and slice assignment replaces the addressed region, resizing the
buffer when the assigned value has a different length. -/

/-- Python slice-boundary normalization for a sequence of length `len`. -/
def sliceIdx (len : Nat) (i : Int) : Nat :=
  if i < 0 then ((len : Int) + i).toNat else min i.toNat len

/-- Python `seq[i:j]` (step 1). -/
def sliceGet (l : List Nat) (i j : Int) : List Nat :=
  (l.drop (sliceIdx l.length i)).take (sliceIdx l.length j - sliceIdx l.length i)

/-- Python `seq[i:j] = xs` (step 1) on a mutable sequence. -/
def sliceSet (l : List Nat) (i j : Int) (xs : List Nat) : List Nat :=
  let s := sliceIdx l.length i
  let e := max s (sliceIdx l.length j)
  l.take s ++ xs ++ l.drop e

/-- `sign_payload` from `govee_ble.py`: XOR-fold of the bytes, masked with
`& 0xFF`. -/
def sign_payload (data : List Nat) : Nat :=
  (data.foldl (fun checksum b => checksum ^^^ b) 0) &&& 255

/-- The `for i in range(1, chunks + 1)` loop of `prepare_multi_packet`
(`govee_ble.py` lines 91-105): builds each 17-byte chunk from `data`,
appends a checksummed 20-byte continuation frame (`chunk_buffer`) for every
chunk but the last, and writes the last chunk into the terminator
(`additional_buffer`). Returns the updated terminator and the accumulated
continuation frames. -/
def multiChunkLoop (protocol_type : Nat) (data : List Nat) (chunks remainder : Nat) :
    List Nat → Int → List Nat → List (List Nat) → List Nat × List (List Nat)
  | [], _, additional_buffer, result => (additional_buffer, result)
  | i :: rest, current_index, additional_buffer, result =>
    let chunk_size : Nat := if i = chunks then remainder else 17
    let chunk := sliceSet (List.replicate 17 0) 0 chunk_size
      (sliceGet data current_index (current_index + chunk_size))
    if i = chunks then
      multiChunkLoop protocol_type data chunks remainder rest
        (current_index + chunk_size)
        (sliceSet additional_buffer 2 (2 + chunk_size) (sliceGet chunk 0 chunk_size))
        result
    else
      let chunk_buffer := ((List.replicate 20 0).set 0 protocol_type).set 1 i
      let chunk_buffer := sliceSet chunk_buffer 2 (2 + chunk_size) chunk
      let chunk_buffer :=
        chunk_buffer.set 19 (sign_payload (sliceGet chunk_buffer 0 19))
      multiChunkLoop protocol_type data chunks remainder rest
        (current_index + chunk_size) additional_buffer (result ++ [chunk_buffer])

/-- `prepare_multi_packet` from `govee_ble.py`.

`none` models the `OverflowError` raised by an `array('B')` element
assignment: with a byte-valued `protocol_type` the first failing assignment
is `initial_buffer[3] = len(result) + 2` when the frame count
`chunks - 1 + 2` exceeds 255 (for `chunks ≥ 257` the loop's
`chunk_buffer[1] = i` raises first — the same inputs fail either way), and a
`protocol_type` above 255 makes `initial_buffer[0] = protocol_type` raise. -/
def prepare_multi_packet (protocol_type : Nat) (header_array data : List Nat) :
    Option (List (List Nat)) :=
  if protocol_type ≥ 256 then none
  else
    let header_length := header_array.length
    let header_offset : Int := (header_length : Int) + 4
    let initial_buffer := (((List.replicate 20 0).set 0 protocol_type).set 1 0).set 2 1
    let initial_buffer := sliceSet initial_buffer 4 header_offset header_array
    let additional_buffer := ((List.replicate 20 0).set 0 protocol_type).set 1 255
    let remaining_space : Int := 14 - (header_length : Int) + 1
    if (data.length : Int) ≤ remaining_space then
      let initial_buffer := sliceSet initial_buffer header_offset
        (header_offset + (data.length : Int)) data
      let initial_buffer := initial_buffer.set 3 (0 + 2)
      let initial_buffer :=
        initial_buffer.set 19 (sign_payload (sliceGet initial_buffer 0 19))
      let additional_buffer :=
        additional_buffer.set 19 (sign_payload (sliceGet additional_buffer 0 19))
      some ([initial_buffer] ++ [additional_buffer])
    else
      let excess := ((data.length : Int) - remaining_space).toNat
      let chunks0 := excess / 17
      let remainder0 := excess % 17
      let chunks := if remainder0 > 0 then chunks0 + 1 else chunks0
      let remainder := if remainder0 > 0 then remainder0 else 17
      if chunks - 1 + 2 > 255 then none
      else
        let initial_buffer := sliceSet initial_buffer header_offset
          (header_offset + remaining_space) (sliceGet data 0 remaining_space)
        let stepped := multiChunkLoop protocol_type data chunks remainder
          (List.range' 1 chunks) remaining_space additional_buffer []
        let additional_buffer := stepped.1
        let result := stepped.2
        let initial_buffer := initial_buffer.set 3 (result.length + 2)
        let initial_buffer :=
          initial_buffer.set 19 (sign_payload (sliceGet initial_buffer 0 19))
        let additional_buffer :=
          additional_buffer.set 19 (sign_payload (sliceGet additional_buffer 0 19))
        some ([initial_buffer] ++ result ++ [additional_buffer])

/-! ### Evaluating the slice primitives on in-range indices -/

theorem sliceIdx_of_nonneg (len : Nat) (i : Int) (h0 : 0 ≤ i)
    (h : i.toNat ≤ len) : sliceIdx len i = i.toNat := by
  unfold sliceIdx
  rw [if_neg (by omega), min_eq_left h]

theorem sliceGet_spec (l : List Nat) (i j : Int) (h0 : 0 ≤ i) (hij : i ≤ j)
    (hj : j.toNat ≤ l.length) :
    sliceGet l i j = (l.drop i.toNat).take (j.toNat - i.toNat) := by
  unfold sliceGet
  rw [sliceIdx_of_nonneg _ _ h0 (by omega), sliceIdx_of_nonneg _ _ (h0.trans hij) hj]

theorem sliceSet_spec (l : List Nat) (i j : Int) (xs : List Nat) (h0 : 0 ≤ i)
    (hij : i ≤ j) (hj : j.toNat ≤ l.length) :
    sliceSet l i j xs = l.take i.toNat ++ xs ++ l.drop j.toNat := by
  unfold sliceSet
  rw [sliceIdx_of_nonneg _ _ h0 (by omega), sliceIdx_of_nonneg _ _ (h0.trans hij) hj]
  simp only [max_eq_right (show i.toNat ≤ j.toNat by omega)]

/-- Setting the element just past a list replaces a single appended cell. -/
theorem set_length_append (l : List Nat) (x c : Nat) :
    (l ++ [x]).set l.length c = l ++ [c] := by
  induction l with
  | nil => rfl
  | cons a t ih => simp [ih]

/-! ### Frame normal forms -/

/-- A finished frame: a 19-byte body followed by its masked XOR checksum
(the shape every 20-byte buffer has after its `buf[19] = sign_payload(buf[0:19])`
update). -/
def mkFrame (body : List Nat) : List Nat := body ++ [sign_payload body]

/-- The continuation frames emitted by `multiChunkLoop` for `k` full 17-byte
chunks, starting at frame index `start` and data offset `cur`. -/
def contFrames (pt : Nat) (data : List Nat) : Nat → Nat → Nat → List (List Nat)
  | _, _, 0 => []
  | start, cur, k + 1 =>
      mkFrame (pt :: start :: (data.drop cur).take 17) ::
        contFrames pt data (start + 1) (cur + 17) k

theorem initial_buffer_eq (pt : Nat) :
    (((List.replicate 20 0).set 0 pt).set 1 0).set 2 1
      = pt :: 0 :: 1 :: List.replicate 17 0 := rfl

theorem two_set_eq (pt v : Nat) :
    ((List.replicate 20 0).set 0 pt).set 1 v
      = pt :: v :: List.replicate 18 0 := rfl

theorem set2_eq (pt : Nat) :
    (pt :: 0 :: List.replicate 18 0).set 2 1
      = pt :: 0 :: 1 :: List.replicate 17 0 := rfl

/-- XOR-folding bytes below 256 stays below 256. -/
theorem xor_fold_lt (l : List Nat) (acc : Nat) (hacc : acc < 256)
    (h : ∀ b ∈ l, b < 256) : l.foldl (fun c b => c ^^^ b) acc < 256 := by
  induction l generalizing acc with
  | nil => simpa using hacc
  | cons a t ih =>
    rw [List.foldl_cons]
    have h256 : (256 : Nat) = 2 ^ 8 := by norm_num
    refine ih _ ?_ (fun b hb => h b (List.mem_cons_of_mem _ hb))
    rw [h256]
    exact Nat.xor_lt_two_pow (h256 ▸ hacc) (h256 ▸ h a (List.mem_cons_self a t))

/-- On byte-valued bodies the `& 0xFF` mask in `sign_payload` is a no-op. -/
theorem sign_payload_eq (body : List Nat) (h : ∀ b ∈ body, b < 256) :
    sign_payload body = body.foldl (fun c b => c ^^^ b) 0 := by
  unfold sign_payload
  have h1 := Nat.and_pow_two_sub_one_eq_mod (body.foldl (fun c b => c ^^^ b) 0) 8
  norm_num at h1
  rw [h1, Nat.mod_eq_of_lt (xor_fold_lt body 0 (by norm_num) h)]

/-- A finished frame over a byte-valued body XORs to zero. -/
theorem xor_checksum_mkFrame (body : List Nat) (h : ∀ b ∈ body, b < 256) :
    xor_checksum (mkFrame body) = 0 := by
  unfold mkFrame xor_checksum
  rw [List.foldl_append, sign_payload_eq body h]
  simp

/-- Reading a chunk slice of `data` that lies fully in range. -/
theorem sliceGet_data_eval (data : List Nat) (cur cs : Nat)
    (hlen : cur + cs ≤ data.length) :
    sliceGet data (cur : Int) ((cur : Int) + (cs : Int))
      = (data.drop cur).take cs := by
  rw [sliceGet_spec data _ _ (by omega) (by omega) (by omega)]
  rw [show ((cur : Int) + (cs : Int)).toNat = cur + cs by omega, Int.toNat_natCast,
    Nat.add_sub_cancel_left]

/-- Building one chunk buffer: the slice of `data`, zero-padded to 17. -/
theorem chunk_eval (data : List Nat) (cur cs : Nat) (hcs : cs ≤ 17)
    (hlen : cur + cs ≤ data.length) :
    sliceSet (List.replicate 17 0) 0 (cs : Int)
        (sliceGet data (cur : Int) ((cur : Int) + (cs : Int)))
      = (data.drop cur).take cs ++ List.replicate (17 - cs) 0 := by
  rw [sliceGet_data_eval data cur cs hlen,
    sliceSet_spec _ _ _ _ (by omega) (by omega) (by simpa using hcs)]
  rw [Int.toNat_natCast]
  simp only [Int.toNat_zero, List.take_zero, List.nil_append, List.drop_replicate]

/-- Taking exactly the length of the left part of an append. -/
theorem take_append_of_length (xs z : List Nat) (n : Nat) (h : xs.length = n) :
    (xs ++ z).take n = xs := by
  subst h
  exact List.take_left xs z

/-- Reading back the data part of a chunk buffer. -/
theorem chunk_readback (data : List Nat) (cur cs : Nat)
    (hlen : cur + cs ≤ data.length) :
    sliceGet ((data.drop cur).take cs ++ List.replicate (17 - cs) 0) 0 (cs : Int)
      = (data.drop cur).take cs := by
  have hxs : ((data.drop cur).take cs).length = cs := by simp; omega
  rw [sliceGet_spec _ _ _ (by omega) (by omega) (by simp; omega)]
  simp only [Int.toNat_natCast, Int.toNat_zero, Nat.sub_zero, List.drop_zero]
  exact take_append_of_length _ _ _ hxs

/-- Closed form of `multiChunkLoop` in the regular regime: running over the
index list `range(start, start + k + 2)` when the data left at offset `cur`
is exactly `17 * (k) + remainder` more bytes... (see statement). The loop
emits `k` full 17-byte continuation frames and then writes the final
`remainder`-byte chunk into the terminator buffer. -/
theorem multiChunkLoop_spec (pt : Nat) (data : List Nat) (chunks remainder : Nat)
    (hr1 : 1 ≤ remainder) (hrle : remainder ≤ 17) :
    ∀ (k start cur : Nat) (add : List Nat) (res : List (List Nat)),
      start + k = chunks →
      cur + 17 * k + remainder = data.length →
      multiChunkLoop pt data chunks remainder (List.range' start (k + 1))
          (cur : Int) add res =
        (sliceSet add 2 (2 + (remainder : Int))
            ((data.drop (cur + 17 * k)).take remainder),
          res ++ contFrames pt data start cur k) := by
  intro k
  induction k with
  | zero =>
    intro start cur add res hst hlen
    obtain rfl : start = chunks := by omega
    have hcr : cur + remainder ≤ data.length := by omega
    simp only [List.range', multiChunkLoop, if_pos rfl, eq_self_iff_true, if_true]
    rw [chunk_eval data cur remainder hrle hcr, chunk_readback data cur remainder hcr]
    simp [contFrames]
  | succ k ih =>
    intro start cur add res hst hlen
    have hne : start ≠ chunks := by omega
    have hc17 : cur + 17 ≤ data.length := by omega
    have hrange : List.range' start (k + 1 + 1) = start :: List.range' (start + 1) (k + 1) :=
      rfl
    rw [hrange]
    generalize hL : List.range' (start + 1) (k + 1) = L
    simp only [multiChunkLoop, if_neg hne]
    rw [chunk_eval data cur 17 (by omega) hc17]
    simp only [Nat.sub_self, List.replicate_zero, List.append_nil, two_set_eq]
    have hxs : ((data.drop cur).take 17).length = 17 := by simp; omega
    have hbuf : sliceSet (pt :: start :: List.replicate 18 0) 2 (2 + ((17 : Nat) : Int))
        ((data.drop cur).take 17)
        = (pt :: start :: (data.drop cur).take 17) ++ [0] := by
      rw [sliceSet_spec _ _ _ _ (by omega) (by omega) (by simp)]
      rw [show ((2 : Int) + ((17 : Nat) : Int)).toNat = 19 by omega,
        show ((2 : Int)).toNat = 2 by omega]
      simp [List.drop_replicate]
    rw [hbuf]
    have hname : (pt :: start :: (data.drop cur).take 17).length = 19 := by
      simp [hxs]
    have hslice : sliceGet ((pt :: start :: (data.drop cur).take 17) ++ [0]) 0 19
        = pt :: start :: (data.drop cur).take 17 := by
      rw [sliceGet_spec _ _ _ (by omega) (by omega) (by simp [hxs])]
      rw [show ((19 : Int)).toNat = 19 by omega]
      simp only [Int.toNat_zero, Nat.sub_zero, List.drop_zero]
      rw [← hname, List.take_left]
    rw [hslice, ← hname, set_length_append]
    rw [show (pt :: start :: (data.drop cur).take 17) ++
        [sign_payload (pt :: start :: (data.drop cur).take 17)]
        = mkFrame (pt :: start :: (data.drop cur).take 17) from rfl]
    rw [show (cur : Int) + ((17 : Nat) : Int) = ((cur + 17 : Nat) : Int) by push_cast; ring]
    rw [← hL]
    rw [ih (start + 1) (cur + 17) add (res ++ [mkFrame (pt :: start :: (data.drop cur).take 17)])
      (by omega) (by omega)]
    rw [show cur + 17 + 17 * k = cur + 17 * (k + 1) by ring]
    simp [contFrames, mkFrame]

theorem set3_cons (a b c d v : Nat) (T : List Nat) :
    (a :: b :: c :: d :: T).set 3 v = a :: b :: c :: v :: T := rfl

theorem take19_cons4 (a b c d : Nat) (T : List Nat) :
    (a :: b :: c :: d :: T).take 19 = a :: b :: c :: d :: T.take 15 := rfl

/-- `buf[19] = c` on a 20-byte buffer replaces the final byte. -/
theorem set19_of_length (X : List Nat) (c : Nat) (h : X.length = 20) :
    X.set 19 c = X.take 19 ++ [c] := by
  rw [List.set_eq_take_cons_drop c (by omega)]
  rw [List.drop_eq_nil_of_le (by omega)]

/-- Reading the 19-byte body slice of a (≥ 19-byte) buffer. -/
theorem sliceGet_body (X : List Nat) (h : 19 ≤ X.length) :
    sliceGet X 0 19 = X.take 19 := by
  rw [sliceGet_spec _ _ _ (by omega) (by omega) (by simpa using h)]
  rfl

/-- The update `buf[19] = sign_payload(buf[0:19])` finishes a 20-byte buffer
into the checksummed frame over its 19-byte body. -/
theorem checksum_update (X : List Nat) (h : X.length = 20) :
    X.set 19 (sign_payload (sliceGet X 0 19)) = mkFrame (X.take 19) := by
  rw [sliceGet_body X (by omega), set19_of_length X _ h]
  rfl

theorem contFrames_length (pt : Nat) (data : List Nat) :
    ∀ (k start cur : Nat), (contFrames pt data start cur k).length = k := by
  intro k
  induction k with
  | zero => intro start cur; rfl
  | succ k ih => intro start cur; simp [contFrames, ih]

/-- The header splice into the fresh initial buffer, for headers of at most
15 bytes. -/
theorem header_splice_eq (pt : Nat) (header : List Nat) (hh : header.length ≤ 15) :
    sliceSet (pt :: 0 :: 1 :: List.replicate 17 0) 4
      ((header.length : Int) + 4) header
      = pt :: 0 :: 1 :: 0 :: (header ++ List.replicate (16 - header.length) 0) := by
  rw [sliceSet_spec _ _ _ _ (by omega) (by omega) (by simp; omega)]
  rw [show ((header.length : Int) + 4).toNat = 4 + header.length by omega]
  rw [show pt :: 0 :: 1 :: List.replicate 17 0
      = [pt, 0, 1, 0] ++ List.replicate 16 0 from rfl]
  rw [show (4 : Nat) + header.length = [pt, 0, 1, 0].length + header.length from rfl]
  rw [show ((4 : Int)).toNat = 4 from rfl]
  rw [List.drop_append, List.drop_replicate,
    take_append_of_length [pt, 0, 1, 0] _ 4 rfl]
  simp [List.append_assoc]

/-- `prepare_multi_packet` in the single-fragment case: the data fits in the
initial frame and the returned sequence is the initial frame followed by an
empty terminator. -/
theorem prepare_fits_spec (pt : Nat) (header data : List Nat) (hpt : pt < 256)
    (hh : header.length ≤ 15) (hd : data.length ≤ 15 - header.length) :
    prepare_multi_packet pt header data =
      some [mkFrame (pt :: 0 :: 1 :: 2 ::
          (header ++ data ++ List.replicate (15 - header.length - data.length) 0)),
        mkFrame (pt :: 255 :: List.replicate 17 0)] := by
  have hIH := header_splice_eq pt header hh
  have hID : sliceSet (pt :: 0 :: 1 :: 0 :: (header ++ List.replicate (16 - header.length) 0))
      ((header.length : Int) + 4) ((header.length : Int) + 4 + (data.length : Int)) data
      = pt :: 0 :: 1 :: 0 :: (header ++ data ++ List.replicate (16 - header.length - data.length) 0) := by
    rw [show pt :: 0 :: 1 :: 0 :: (header ++ List.replicate (16 - header.length) 0)
        = ([pt, 0, 1, 0] ++ header) ++ List.replicate (16 - header.length) 0 from by
      simp [List.append_assoc]]
    rw [sliceSet_spec _ _ _ _ (by omega) (by omega) (by simp; omega)]
    rw [show ((header.length : Int) + 4).toNat
        = ([pt, 0, 1, 0] ++ header).length by simp; omega]
    rw [List.take_left]
    rw [show ((header.length : Int) + 4 + (data.length : Int)).toNat
        = ([pt, 0, 1, 0] ++ header).length + data.length by simp; omega]
    rw [List.drop_append, List.drop_replicate]
    simp [List.append_assoc]
  unfold prepare_multi_packet
  simp only [two_set_eq, set2_eq]
  rw [if_neg (by omega), if_pos (by omega)]
  rw [hIH, hID, set3_cons, show (0 + 2 : Nat) = 2 from rfl]
  rw [checksum_update _ (by simp; omega), checksum_update _ (by simp)]
  rw [take19_cons4, take19_cons2]
  rw [List.take_append_eq_append_take,
    List.take_of_length_le (show (header ++ data).length ≤ 15 by simp; omega)]
  rw [List.take_replicate, List.take_replicate]
  rw [show min (15 - (header ++ data).length) (16 - header.length - data.length)
      = 15 - header.length - data.length by simp; omega]
  rw [show min 17 18 = 17 by omega]
  rfl

/-- `prepare_multi_packet` in the multi-fragment case (`header.length ≤ 15`,
data exceeding the initial frame's capacity, frame count within a byte):
the initial frame carries the first `15 - header.length` data bytes and the
total frame count in byte 3, followed by `chunks - 1` continuation frames of
17 data bytes each, and the terminator carrying the final `remainder`-byte
chunk. -/
theorem prepare_overflow_spec (pt : Nat) (header data : List Nat)
    (chunks remainder : Nat) (hpt : pt < 256) (hh : header.length ≤ 15)
    (hd : 15 - header.length < data.length)
    (hch : chunks = (if (data.length - (15 - header.length)) % 17 > 0
      then (data.length - (15 - header.length)) / 17 + 1
      else (data.length - (15 - header.length)) / 17))
    (hrem : remainder = (if (data.length - (15 - header.length)) % 17 > 0
      then (data.length - (15 - header.length)) % 17 else 17))
    (hcnt : chunks - 1 + 2 ≤ 255) :
    prepare_multi_packet pt header data =
      some (mkFrame (pt :: 0 :: 1 :: (chunks - 1 + 2) ::
          (header ++ data.take (15 - header.length)))
        :: (contFrames pt data 1 (15 - header.length) (chunks - 1)
          ++ [mkFrame (pt :: 255 ::
            ((data.drop ((15 - header.length) + 17 * (chunks - 1))).take remainder
              ++ List.replicate (17 - remainder) 0))])) := by
  have he : 1 ≤ data.length - (15 - header.length) := by omega
  have hch1 : 1 ≤ chunks := by rw [hch]; split_ifs <;> omega
  have hrem1 : 1 ≤ remainder := by rw [hrem]; split_ifs <;> omega
  have hrem17 : remainder ≤ 17 := by rw [hrem]; split_ifs <;> omega
  have hacc : (15 - header.length) + 17 * (chunks - 1) + remainder = data.length := by
    rw [hch, hrem]; split_ifs <;> omega
  have hsg : sliceGet data 0 (14 - (header.length : Int) + 1)
      = data.take (15 - header.length) := by
    rw [sliceGet_spec _ _ _ (by omega) (by omega) (by omega)]
    rw [show ((14 : Int) - (header.length : Int) + 1).toNat = 15 - header.length by omega]
    simp
  have hID2 : sliceSet (pt :: 0 :: 1 :: 0 :: (header ++ List.replicate (16 - header.length) 0))
      ((header.length : Int) + 4)
      ((header.length : Int) + 4 + (14 - (header.length : Int) + 1))
      (data.take (15 - header.length))
      = pt :: 0 :: 1 :: 0 :: (header ++ data.take (15 - header.length) ++ [0]) := by
    rw [show pt :: 0 :: 1 :: 0 :: (header ++ List.replicate (16 - header.length) 0)
        = ([pt, 0, 1, 0] ++ header) ++ List.replicate (16 - header.length) 0 from by
      simp [List.append_assoc]]
    rw [sliceSet_spec _ _ _ _ (by omega) (by omega) (by simp; omega)]
    rw [show ((header.length : Int) + 4).toNat
        = ([pt, 0, 1, 0] ++ header).length by simp; omega]
    rw [List.take_left]
    rw [show ((header.length : Int) + 4 + (14 - (header.length : Int) + 1)).toNat
        = ([pt, 0, 1, 0] ++ header).length + (15 - header.length) by simp; omega]
    rw [List.drop_append, List.drop_replicate]
    rw [show 16 - header.length - (15 - header.length) = 1 by omega]
    simp [List.append_assoc]
  have hterm : ∀ X : List Nat,
      sliceSet (pt :: 255 :: List.replicate 18 0) 2 (2 + (remainder : Int)) X
        = pt :: 255 :: (X ++ List.replicate (18 - remainder) 0) := by
    intro X
    rw [show pt :: 255 :: List.replicate 18 0
        = [pt, 255] ++ List.replicate 18 0 from rfl]
    rw [sliceSet_spec _ _ _ _ (by omega) (by omega) (by simp; omega)]
    rw [show ((2 : Int)).toNat = [pt, 255].length from rfl]
    rw [show ((2 : Int) + (remainder : Int)).toNat = [pt, 255].length + remainder by
      simp; omega]
    rw [List.take_left, List.drop_append, List.drop_replicate]
    simp [List.append_assoc]
  unfold prepare_multi_packet
  simp only [two_set_eq, set2_eq]
  rw [if_neg (by omega), if_neg (by omega)]
  rw [show ((data.length : Int) - (14 - (header.length : Int) + 1)).toNat
      = data.length - (15 - header.length) by omega]
  rw [← hch, ← hrem]
  rw [if_neg (by omega)]
  rw [header_splice_eq pt header hh, hsg, hID2]
  rw [show (14 : Int) - (header.length : Int) + 1
      = ((15 - header.length : Nat) : Int) by omega]
  rw [show List.range' 1 chunks = List.range' 1 (chunks - 1 + 1) by
    rw [Nat.sub_add_cancel hch1]]
  rw [multiChunkLoop_spec pt data chunks remainder hrem1 hrem17 (chunks - 1) 1
    (15 - header.length) _ _ (by omega) (by omega)]
  simp only [List.nil_append]
  rw [contFrames_length, hterm, set3_cons]
  rw [checksum_update _ (by simp; omega)]
  rw [checksum_update _ (by simp; omega)]
  rw [take19_cons4, take19_cons2]
  rw [List.take_append_eq_append_take,
    List.take_of_length_le (show (header ++ data.take (15 - header.length)).length ≤ 15 by
      simp; omega)]
  rw [show 15 - (header ++ data.take (15 - header.length)).length = 0 by simp; omega]
  rw [List.take_zero, List.append_nil]
  rw [List.take_append_eq_append_take,
    List.take_of_length_le (show ((data.drop ((15 - header.length) + 17 * (chunks - 1))).take remainder).length ≤ 17 by
      simp; omega)]
  rw [List.take_replicate]
  rw [show min (17 - ((data.drop ((15 - header.length) + 17 * (chunks - 1))).take remainder).length)
      (18 - remainder) = 17 - remainder by simp; omega]
  simp [List.cons_append, List.append_assoc]

/-! ### Properties of the emitted frames -/

theorem mkFrame_length (body : List Nat) : (mkFrame body).length = body.length + 1 := by
  simp [mkFrame]

theorem drop_append_of_length (xs z : List Nat) (n : Nat) (h : xs.length = n) :
    (xs ++ z).drop n = z := by
  rw [← h]
  exact List.drop_left xs z

theorem mkFrame_drop2 (a b : Nat) (l : List Nat) :
    (mkFrame (a :: b :: l)).drop 2 = l ++ [sign_payload (a :: b :: l)] := rfl

/-- Every continuation frame is 20 bytes when the data suffices for all its
chunks. -/
theorem contFrames_mem_length (pt : Nat) (data : List Nat) :
    ∀ (k start cur : Nat), cur + 17 * k ≤ data.length →
      ∀ f ∈ contFrames pt data start cur k, f.length = 20 := by
  intro k
  induction k with
  | zero => intro start cur _ f hf; simp [contFrames] at hf
  | succ k ih =>
    intro start cur hcur f hf
    rw [contFrames] at hf
    rcases List.mem_cons.mp hf with h | h
    · subst h
      rw [mkFrame_length]
      simp
      omega
    · exact ih (start + 1) (cur + 17) (by omega) f h

/-- Every continuation frame XORs to zero for byte-valued inputs and frame
indices. -/
theorem contFrames_mem_checksum (pt : Nat) (data : List Nat) (hpt : pt ≤ 255)
    (hd : ∀ b ∈ data, b ≤ 255) :
    ∀ (k start cur : Nat), start + k ≤ 256 →
      ∀ f ∈ contFrames pt data start cur k, xor_checksum f = 0 := by
  intro k
  induction k with
  | zero => intro start cur _ f hf; simp [contFrames] at hf
  | succ k ih =>
    intro start cur hst f hf
    rw [contFrames] at hf
    rcases List.mem_cons.mp hf with h | h
    · subst h
      refine xor_checksum_mkFrame _ ?_
      intro b hb
      simp only [List.mem_cons] at hb
      rcases hb with rfl | rfl | hb
      · omega
      · omega
      · have := hd b (List.mem_of_mem_drop (List.mem_of_mem_take hb))
        omega
    · exact ih (start + 1) (cur + 17) (by omega) f h

/-- Byte 0 of every continuation frame is the protocol type. -/
theorem contFrames_mem_byte0 (pt : Nat) (data : List Nat) :
    ∀ (k start cur : Nat), ∀ f ∈ contFrames pt data start cur k,
      f.getD 0 999 = pt := by
  intro k
  induction k with
  | zero => intro start cur f hf; simp [contFrames] at hf
  | succ k ih =>
    intro start cur f hf
    rw [contFrames] at hf
    rcases List.mem_cons.mp hf with h | h
    · subst h; rfl
    · exact ih (start + 1) (cur + 17) f h

/-- Byte 1 of the `j`-th continuation frame is `start + j`. -/
theorem contFrames_byte1 (pt : Nat) (data : List Nat) :
    ∀ (k start cur j : Nat), j < k →
      ((contFrames pt data start cur k).getD j []).getD 1 999 = start + j := by
  intro k
  induction k with
  | zero => intro start cur j hj; omega
  | succ k ih =>
    intro start cur j hj
    rw [contFrames]
    match j with
    | 0 => rfl
    | j + 1 =>
      rw [List.getD_cons_succ, ih (start + 1) (cur + 17) j (by omega)]
      omega

/-- Concatenating the 17-byte data regions of the continuation frames
recovers the corresponding region of `data`. -/
theorem contFrames_regions (pt : Nat) (data : List Nat) :
    ∀ (k start cur : Nat), cur + 17 * k ≤ data.length →
      ((contFrames pt data start cur k).map (fun f => (f.drop 2).take 17)).flatten
        = (data.drop cur).take (17 * k) := by
  intro k
  induction k with
  | zero => intro start cur _; simp [contFrames]
  | succ k ih =>
    intro start cur hcur
    rw [contFrames, List.map_cons, List.flatten_cons, mkFrame_drop2]
    have hx : ((data.drop cur).take 17).length = 17 := by simp; omega
    rw [List.take_append_eq_append_take, List.take_of_length_le (by omega),
      hx]
    rw [show (17 : Nat) - 17 = 0 from rfl, List.take_zero, List.append_nil]
    rw [ih (start + 1) (cur + 17) (by omega)]
    rw [show 17 * (k + 1) = 17 + 17 * k by ring, List.take_add]
    rw [List.drop_drop]

theorem mkFrame_getD0 (a : Nat) (l : List Nat) (d : Nat) :
    (mkFrame (a :: l)).getD 0 d = a := rfl

theorem mkFrame_getD1 (a b : Nat) (l : List Nat) (d : Nat) :
    (mkFrame (a :: b :: l)).getD 1 d = b := rfl

theorem mkFrame_getD3 (a b c e : Nat) (l : List Nat) (d : Nat) :
    (mkFrame (a :: b :: c :: e :: l)).getD 3 d = e := rfl

/-- `prepare_multi_packet` raises (`none`) when the frame count would
overflow byte 3 (`OverflowError` on `initial_buffer[3] = len(result) + 2`). -/
theorem prepare_overflow_none (pt : Nat) (header data : List Nat) (hpt : pt < 256)
    (hh : header.length ≤ 15) (hd : 15 - header.length < data.length)
    (hcnt : 255 < (if (data.length - (15 - header.length)) % 17 > 0
      then (data.length - (15 - header.length)) / 17 + 1
      else (data.length - (15 - header.length)) / 17) - 1 + 2) :
    prepare_multi_packet pt header data = none := by
  unfold prepare_multi_packet
  simp only [two_set_eq, set2_eq]
  rw [if_neg (by omega), if_neg (by omega)]
  rw [show ((data.length : Int) - (14 - (header.length : Int) + 1)).toNat
      = data.length - (15 - header.length) by omega]
  rw [if_pos hcnt]

/-- C2 counterexample: for a 16-byte header (a perfectly legal byte list)
and 2 data bytes, the initial frame of the returned sequence is 21 bytes
long, not 20 (Python's length-changing slice assignment
`initial_buffer[20:19] = data[0:-1]` appends to the buffer). -/
theorem prepare_multi_packet_20_byte_cex :
    (prepare_multi_packet 0x33 (List.replicate 16 0) [1, 2]).map
        (fun frames => frames.map List.length) = some [21, 20] := by decide

/-- C2 amended: provided the header is at most 15 bytes (the regime the
fragmenter is designed for — the counterexample shows a 16-byte header
already breaks the 20-byte invariant), every returned frame is exactly 20
bytes, every frame independently XORs to zero, the sequence length equals
byte 3 of the initial frame, and the order is initial (byte 1 = 0),
continuations with byte 1 ascending from 1, terminator (byte 1 = 0xFF)
last. -/
theorem prepare_multi_packet_frames_amended (pt : Nat) (header data : List Nat)
    (frames : List (List Nat)) (hpt : pt ≤ 255)
    (hhb : ∀ b ∈ header, b ≤ 255) (hdb : ∀ b ∈ data, b ≤ 255)
    (hlen : header.length ≤ 15)
    (hsome : prepare_multi_packet pt header data = some frames) :
    (∀ f ∈ frames, f.length = 20) ∧
    (∀ f ∈ frames, xor_checksum f = 0) ∧
    ∃ first conts term, frames = first :: (conts ++ [term]) ∧
      first.getD 3 999 = frames.length ∧
      first.getD 1 999 = 0 ∧ term.getD 1 999 = 255 ∧
      ∀ j, j < conts.length → (conts.getD j []).getD 1 999 = j + 1 := by
  by_cases hfits : data.length ≤ 15 - header.length
  · rw [prepare_fits_spec pt header data (by omega) hlen hfits] at hsome
    injection hsome with hfr
    subst hfr
    refine ⟨?_, ?_, ?_⟩
    · intro f hf
      simp only [List.mem_cons, List.not_mem_nil, or_false] at hf
      rcases hf with rfl | rfl
      · rw [mkFrame_length]; simp; omega
      · rw [mkFrame_length]; simp
    · intro f hf
      simp only [List.mem_cons, List.not_mem_nil, or_false] at hf
      rcases hf with rfl | rfl <;> refine xor_checksum_mkFrame _ ?_ <;> intro b hb
      · simp only [List.mem_cons, List.mem_append, List.mem_replicate] at hb
        rcases hb with rfl | rfl | rfl | rfl | (h | h) | ⟨-, rfl⟩
        · omega
        · omega
        · omega
        · omega
        · exact Nat.lt_of_le_of_lt (hhb b h) (by omega)
        · exact Nat.lt_of_le_of_lt (hdb b h) (by omega)
        · omega
      · simp only [List.mem_cons, List.mem_replicate] at hb
        rcases hb with rfl | rfl | ⟨-, rfl⟩ <;> omega
    · refine ⟨_, [], _, rfl, ?_, rfl, rfl, ?_⟩
      · rw [mkFrame_getD3]
        rfl
      · intro j hj
        simp at hj
  · have hd2 : 15 - header.length < data.length := by omega
    have he : 1 ≤ data.length - (15 - header.length) := by omega
    set c := (if (data.length - (15 - header.length)) % 17 > 0
      then (data.length - (15 - header.length)) / 17 + 1
      else (data.length - (15 - header.length)) / 17) with hc
    set r := (if (data.length - (15 - header.length)) % 17 > 0
      then (data.length - (15 - header.length)) % 17 else 17) with hr
    have hch1 : 1 ≤ c := by rw [hc]; split_ifs <;> omega
    have hrem1 : 1 ≤ r := by rw [hr]; split_ifs <;> omega
    have hrem17 : r ≤ 17 := by rw [hr]; split_ifs <;> omega
    have hacc : (15 - header.length) + 17 * (c - 1) + r = data.length := by
      rw [hc, hr]; split_ifs <;> omega
    by_cases hcnt : 255 < c - 1 + 2
    · rw [prepare_overflow_none pt header data (by omega) hlen hd2
        (by rw [← hc]; exact hcnt)] at hsome
      exact absurd hsome (by simp)
    · rw [prepare_overflow_spec pt header data c r (by omega) hlen hd2 hc hr
        (by omega)] at hsome
      injection hsome with hfr
      subst hfr
      refine ⟨?_, ?_, ?_⟩
      · intro f hf
        simp only [List.mem_cons, List.mem_append, List.not_mem_nil, or_false] at hf
        rcases hf with rfl | (h | rfl)
        · rw [mkFrame_length]; simp; omega
        · exact contFrames_mem_length pt data _ 1 (15 - header.length)
            (by omega) f h
        · rw [mkFrame_length]; simp; omega
      · intro f hf
        simp only [List.mem_cons, List.mem_append, List.not_mem_nil, or_false] at hf
        rcases hf with rfl | (h | rfl)
        · refine xor_checksum_mkFrame _ ?_
          intro b hb
          simp only [List.mem_cons, List.mem_append] at hb
          rcases hb with rfl | rfl | rfl | rfl | (h | h)
          · omega
          · omega
          · omega
          · omega
          · exact Nat.lt_of_le_of_lt (hhb b h) (by omega)
          · exact Nat.lt_of_le_of_lt (hdb b (List.mem_of_mem_take h)) (by omega)
        · exact contFrames_mem_checksum pt data hpt hdb _ 1 (15 - header.length)
            (by omega) f h
        · refine xor_checksum_mkFrame _ ?_
          intro b hb
          simp only [List.mem_cons, List.mem_append, List.mem_replicate] at hb
          rcases hb with rfl | rfl | (h | ⟨-, rfl⟩)
          · omega
          · omega
          · exact Nat.lt_of_le_of_lt
              (hdb b (List.mem_of_mem_drop (List.mem_of_mem_take h))) (by omega)
          · omega
      · refine ⟨_, _, _, rfl, ?_, rfl, rfl, ?_⟩
        · rw [mkFrame_getD3]
          simp [contFrames_length]
        · intro j hj
          rw [contFrames_length] at hj
          rw [contFrames_byte1 pt data _ 1 (15 - header.length) j hj]
          omega

theorem drop_add4 (a b c d : Nat) (L : List Nat) (n : Nat) :
    (a :: b :: c :: d :: L).drop (n + 4) = L.drop n := rfl

/-- C7: when the excess over the initial frame's capacity is a positive
multiple of 17 (`17 * k`), the final chunk is treated as a full 17-byte
chunk: the sequence has exactly `k - 1` continuation frames and the
terminator carries the final 17 data bytes. -/
theorem prepare_multi_packet_zero_remainder (pt : Nat) (header data : List Nat)
    (frames : List (List Nat)) (k : Nat) (hpt : pt ≤ 255)
    (hlen : header.length ≤ 15) (hk : 1 ≤ k)
    (hex : data.length = (15 - header.length) + 17 * k)
    (hsome : prepare_multi_packet pt header data = some frames) :
    ∃ first conts term, frames = first :: (conts ++ [term]) ∧
      conts.length = k - 1 ∧
      (term.drop 2).take 17 = data.drop (data.length - 17) := by
  have hd2 : 15 - header.length < data.length := by omega
  have hmod : (data.length - (15 - header.length)) % 17 = 0 := by
    rw [show data.length - (15 - header.length) = 17 * k by omega]
    omega
  have hdiv : (data.length - (15 - header.length)) / 17 = k := by
    rw [show data.length - (15 - header.length) = 17 * k by omega]
    omega
  have hch : k = (if (data.length - (15 - header.length)) % 17 > 0
      then (data.length - (15 - header.length)) / 17 + 1
      else (data.length - (15 - header.length)) / 17) := by
    rw [hmod, hdiv]
    simp
  have hrem : 17 = (if (data.length - (15 - header.length)) % 17 > 0
      then (data.length - (15 - header.length)) % 17 else 17) := by
    rw [hmod]
    simp
  by_cases hcnt : 255 < k - 1 + 2
  · rw [prepare_overflow_none pt header data (by omega) hlen hd2
      (by rw [← hch]; exact hcnt)] at hsome
    exact absurd hsome (by simp)
  · rw [prepare_overflow_spec pt header data k 17 (by omega) hlen hd2 hch hrem
      (by omega)] at hsome
    injection hsome with hfr
    subst hfr
    refine ⟨_, _, _, rfl, contFrames_length pt data (k - 1) 1 _, ?_⟩
    rw [mkFrame_drop2]
    rw [show (17 : Nat) - 17 = 0 from rfl, List.replicate_zero, List.append_nil]
    have hfull : ((data.drop ((15 - header.length) + 17 * (k - 1))).take 17).length
        = 17 := by
      simp
      omega
    rw [take_append_of_length _ _ _ hfull]
    rw [show (15 - header.length) + 17 * (k - 1) = data.length - 17 by omega]
    exact List.take_of_length_le (by simp; omega)

/-- C9: concatenating, in order, the data regions of the frames returned by
`prepare_multi_packet` (initial frame from byte `4 + len(header)` up to its
capacity, each continuation frame's bytes 2..18, the terminator's bytes
2..18) recovers the original data followed only by zero padding, and every
frame carries the protocol type in byte 0. -/
theorem prepare_multi_packet_roundtrip (pt : Nat) (header data : List Nat)
    (frames : List (List Nat)) (hpt : pt ≤ 255) (hlen : header.length ≤ 15)
    (hsome : prepare_multi_packet pt header data = some frames) :
    (∀ f ∈ frames, f.getD 0 999 = pt) ∧
    ∃ first conts term pad, frames = first :: (conts ++ [term]) ∧
      (first.drop (4 + header.length)).take (15 - header.length)
        ++ (((conts.map (fun f => (f.drop 2).take 17)).flatten)
          ++ (term.drop 2).take 17)
        = data ++ List.replicate pad 0 := by
  by_cases hfits : data.length ≤ 15 - header.length
  · rw [prepare_fits_spec pt header data (by omega) hlen hfits] at hsome
    injection hsome with hfr
    subst hfr
    constructor
    · intro f hf
      simp only [List.mem_cons, List.not_mem_nil, or_false] at hf
      rcases hf with rfl | rfl <;> rfl
    refine ⟨_, [], _, 15 - header.length - data.length + 17, rfl, ?_⟩
    rw [show mkFrame (pt :: 0 :: 1 :: 2 ::
        (header ++ data ++ List.replicate (15 - header.length - data.length) 0))
        = pt :: 0 :: 1 :: 2 ::
          ((header ++ data ++ List.replicate (15 - header.length - data.length) 0)
            ++ [sign_payload (pt :: 0 :: 1 :: 2 ::
              (header ++ data ++ List.replicate (15 - header.length - data.length) 0))])
        from rfl]
    rw [show (4 : Nat) + header.length = header.length + 4 by ring, drop_add4]
    rw [show (header ++ data ++ List.replicate (15 - header.length - data.length) 0)
          ++ [sign_payload (pt :: 0 :: 1 :: 2 ::
            (header ++ data ++ List.replicate (15 - header.length - data.length) 0))]
        = header ++ ((data ++ List.replicate (15 - header.length - data.length) 0)
          ++ [sign_payload (pt :: 0 :: 1 :: 2 ::
            (header ++ data ++ List.replicate (15 - header.length - data.length) 0))])
        from by simp [List.append_assoc]]
    rw [drop_append_of_length header _ _ rfl]
    rw [take_append_of_length _ _ _ (show (data ++ List.replicate
        (15 - header.length - data.length) 0).length = 15 - header.length by
      simp; omega)]
    rw [mkFrame_drop2]
    rw [take_append_of_length _ _ _ (by simp : (List.replicate 17 (0 : Nat)).length = 17)]
    simp only [List.map_nil, List.flatten_nil, List.nil_append]
    rw [List.append_assoc, ← List.replicate_add]
  · have hd2 : 15 - header.length < data.length := by omega
    have he : 1 ≤ data.length - (15 - header.length) := by omega
    set c := (if (data.length - (15 - header.length)) % 17 > 0
      then (data.length - (15 - header.length)) / 17 + 1
      else (data.length - (15 - header.length)) / 17) with hc
    set r := (if (data.length - (15 - header.length)) % 17 > 0
      then (data.length - (15 - header.length)) % 17 else 17) with hr
    have hch1 : 1 ≤ c := by rw [hc]; split_ifs <;> omega
    have hrem1 : 1 ≤ r := by rw [hr]; split_ifs <;> omega
    have hrem17 : r ≤ 17 := by rw [hr]; split_ifs <;> omega
    have hacc : (15 - header.length) + 17 * (c - 1) + r = data.length := by
      rw [hc, hr]; split_ifs <;> omega
    by_cases hcnt : 255 < c - 1 + 2
    · rw [prepare_overflow_none pt header data (by omega) hlen hd2
        (by rw [← hc]; exact hcnt)] at hsome
      exact absurd hsome (by simp)
    · rw [prepare_overflow_spec pt header data c r (by omega) hlen hd2 hc hr
        (by omega)] at hsome
      injection hsome with hfr
      subst hfr
      constructor
      · intro f hf
        simp only [List.mem_cons, List.mem_append, List.not_mem_nil, or_false] at hf
        rcases hf with rfl | (h | rfl)
        · rfl
        · exact contFrames_mem_byte0 pt data (c - 1) 1 (15 - header.length) f h
        · rfl
      refine ⟨_, _, _, 17 - r, rfl, ?_⟩
      rw [show mkFrame (pt :: 0 :: 1 :: (c - 1 + 2) ::
          (header ++ data.take (15 - header.length)))
          = pt :: 0 :: 1 :: (c - 1 + 2) ::
            ((header ++ data.take (15 - header.length))
              ++ [sign_payload (pt :: 0 :: 1 :: (c - 1 + 2) ::
                (header ++ data.take (15 - header.length)))])
          from rfl]
      rw [show (4 : Nat) + header.length = header.length + 4 by ring, drop_add4]
      rw [show (header ++ data.take (15 - header.length))
            ++ [sign_payload (pt :: 0 :: 1 :: (c - 1 + 2) ::
              (header ++ data.take (15 - header.length)))]
          = header ++ (data.take (15 - header.length)
            ++ [sign_payload (pt :: 0 :: 1 :: (c - 1 + 2) ::
              (header ++ data.take (15 - header.length)))])
          from by simp [List.append_assoc]]
      rw [drop_append_of_length header _ _ rfl]
      rw [take_append_of_length _ _ _ (show (data.take (15 - header.length)).length
          = 15 - header.length by simp; omega)]
      rw [contFrames_regions pt data (c - 1) 1 (15 - header.length) (by omega)]
      rw [mkFrame_drop2]
      rw [take_append_of_length _ _ _ (show
          ((data.drop ((15 - header.length) + 17 * (c - 1))).take r
            ++ List.replicate (17 - r) 0).length = 17 by simp; omega)]
      rw [show data.drop ((15 - header.length) + 17 * (c - 1))
          = (data.drop (15 - header.length)).drop (17 * (c - 1)) from by
        rw [List.drop_drop]]
      rw [show ((data.drop (15 - header.length)).take (17 * (c - 1))
            ++ (((data.drop (15 - header.length)).drop (17 * (c - 1))).take r
              ++ List.replicate (17 - r) 0))
          = ((data.drop (15 - header.length)).take (17 * (c - 1))
            ++ ((data.drop (15 - header.length)).drop (17 * (c - 1))).take r)
              ++ List.replicate (17 - r) 0 from by rw [List.append_assoc]]
      rw [← List.take_add]
      rw [show (data.take (15 - header.length)
            ++ ((data.drop (15 - header.length)).take (17 * (c - 1) + r)
              ++ List.replicate (17 - r) 0))
          = (data.take (15 - header.length)
            ++ (data.drop (15 - header.length)).take (17 * (c - 1) + r))
              ++ List.replicate (17 - r) 0 from by rw [List.append_assoc]]
      rw [← List.take_add]
      rw [show (15 - header.length) + (17 * (c - 1) + r) = data.length by omega]
      rw [List.take_length]

/-- Witness for the amended C2 at a concrete fitting input. -/
theorem prepare_multi_packet_frames_amended_witness :
    (∀ f ∈ ([[51, 0, 1, 2, 1, 2, 9, 8, 7, 0, 0, 0, 0, 0, 0, 0, 0, 0, 0, 53],
        [51, 255, 0, 0, 0, 0, 0, 0, 0, 0, 0, 0, 0, 0, 0, 0, 0, 0, 0, 204]] :
        List (List Nat)), f.length = 20) ∧
    (∀ f ∈ ([[51, 0, 1, 2, 1, 2, 9, 8, 7, 0, 0, 0, 0, 0, 0, 0, 0, 0, 0, 53],
        [51, 255, 0, 0, 0, 0, 0, 0, 0, 0, 0, 0, 0, 0, 0, 0, 0, 0, 0, 204]] :
        List (List Nat)), xor_checksum f = 0) ∧
    ∃ first conts term,
      ([[51, 0, 1, 2, 1, 2, 9, 8, 7, 0, 0, 0, 0, 0, 0, 0, 0, 0, 0, 53],
        [51, 255, 0, 0, 0, 0, 0, 0, 0, 0, 0, 0, 0, 0, 0, 0, 0, 0, 0, 204]] :
        List (List Nat)) = first :: (conts ++ [term]) ∧
      first.getD 3 999 =
        ([[51, 0, 1, 2, 1, 2, 9, 8, 7, 0, 0, 0, 0, 0, 0, 0, 0, 0, 0, 53],
          [51, 255, 0, 0, 0, 0, 0, 0, 0, 0, 0, 0, 0, 0, 0, 0, 0, 0, 0, 204]] :
          List (List Nat)).length ∧
      first.getD 1 999 = 0 ∧ term.getD 1 999 = 255 ∧
      ∀ j, j < conts.length → (conts.getD j []).getD 1 999 = j + 1 :=
  prepare_multi_packet_frames_amended 51 [1, 2] [9, 8, 7] _
    (by decide) (by decide) (by decide) (by decide) (by decide)

/-- Witness for C7 at a concrete input whose excess is exactly `17 * 2`. -/
theorem prepare_multi_packet_zero_remainder_witness :
    ∃ first conts term,
      ([[51, 0, 1, 3, 1, 2, 3, 4, 5, 6, 7, 8, 9, 10, 11, 12, 13, 14, 15, 49],
        [51, 1, 16, 17, 18, 19, 20, 21, 22, 23, 24, 25, 26, 27, 28, 29, 30, 31, 32, 18],
        [51, 255, 33, 34, 35, 36, 37, 38, 39, 40, 41, 42, 43, 44, 45, 46, 47, 48, 49, 237]] :
        List (List Nat)) = first :: (conts ++ [term]) ∧
      conts.length = 2 - 1 ∧
      (term.drop 2).take 17 =
        ([1, 2, 3, 4, 5, 6, 7, 8, 9, 10, 11, 12, 13, 14, 15, 16, 17, 18, 19, 20,
          21, 22, 23, 24, 25, 26, 27, 28, 29, 30, 31, 32, 33, 34, 35, 36, 37, 38,
          39, 40, 41, 42, 43, 44, 45, 46, 47, 48, 49] : List Nat).drop
          (([1, 2, 3, 4, 5, 6, 7, 8, 9, 10, 11, 12, 13, 14, 15, 16, 17, 18, 19, 20,
            21, 22, 23, 24, 25, 26, 27, 28, 29, 30, 31, 32, 33, 34, 35, 36, 37, 38,
            39, 40, 41, 42, 43, 44, 45, 46, 47, 48, 49] : List Nat).length - 17) :=
  prepare_multi_packet_zero_remainder 51 []
    [1, 2, 3, 4, 5, 6, 7, 8, 9, 10, 11, 12, 13, 14, 15, 16, 17, 18, 19, 20,
      21, 22, 23, 24, 25, 26, 27, 28, 29, 30, 31, 32, 33, 34, 35, 36, 37, 38,
      39, 40, 41, 42, 43, 44, 45, 46, 47, 48, 49] _ 2
    (by decide) (by decide) (by decide) (by decide) (by decide)

/-- Witness for C9 at a concrete multi-fragment input. -/
theorem prepare_multi_packet_roundtrip_witness :
    (∀ f ∈ ([[51, 0, 1, 3, 1, 2, 1, 2, 3, 4, 5, 6, 7, 8, 9, 10, 11, 12, 13, 51],
        [51, 1, 14, 15, 16, 17, 18, 19, 20, 21, 22, 23, 24, 25, 26, 27, 28, 29, 30, 44],
        [51, 255, 31, 32, 33, 34, 35, 36, 37, 38, 39, 40, 0, 0, 0, 0, 0, 0, 0, 251]] :
        List (List Nat)), f.getD 0 999 = 51) ∧
    ∃ first conts term pad,
      ([[51, 0, 1, 3, 1, 2, 1, 2, 3, 4, 5, 6, 7, 8, 9, 10, 11, 12, 13, 51],
        [51, 1, 14, 15, 16, 17, 18, 19, 20, 21, 22, 23, 24, 25, 26, 27, 28, 29, 30, 44],
        [51, 255, 31, 32, 33, 34, 35, 36, 37, 38, 39, 40, 0, 0, 0, 0, 0, 0, 0, 251]] :
        List (List Nat)) = first :: (conts ++ [term]) ∧
      (first.drop (4 + ([1, 2] : List Nat).length)).take (15 - ([1, 2] : List Nat).length)
        ++ (((conts.map (fun f => (f.drop 2).take 17)).flatten)
          ++ (term.drop 2).take 17)
        = [1, 2, 3, 4, 5, 6, 7, 8, 9, 10, 11, 12, 13, 14, 15, 16, 17, 18, 19, 20,
            21, 22, 23, 24, 25, 26, 27, 28, 29, 30, 31, 32, 33, 34, 35, 36, 37, 38,
            39, 40] ++ List.replicate pad 0 :=
  prepare_multi_packet_roundtrip 51 [1, 2]
    [1, 2, 3, 4, 5, 6, 7, 8, 9, 10, 11, 12, 13, 14, 15, 16, 17, 18, 19, 20,
      21, 22, 23, 24, 25, 26, 27, 28, 29, 30, 31, 32, 33, 34, 35, 36, 37, 38,
      39, 40] _ (by decide) (by decide) (by decide)

/-! ## The connection coordinator (`coordinator.py`)

`GoveeBLECoordinator.send_command` loops `for attempt in range(3)`: each
attempt calls `_ensure_connected()` and then `write_gatt_char`, and any
`BleakError` — including the `BleakError(f"Device {address} not found")`
that `_ensure_connected` raises when address resolution fails — clears the
cached client (`self._client = None`) and, unless it was the 3rd attempt,
retries; on the 3rd failure the error is re-raised.  The BLE environment is
abstracted as one `AttemptEnv` per loop iteration, and client handles are
numbered by the attempt that established them. -/

/-- The observable behaviour of the BLE environment during one attempt. -/
structure AttemptEnv where
  /-- `self._client.is_connected` for a cached handle at the check. -/
  cached_connected : Bool
  /-- `bluetooth.async_ble_device_from_address` returns a device. -/
  device_found : Bool
  /-- `establish_connection` succeeds (else it raises `BleakError`). -/
  connect_ok : Bool
  /-- `client.write_gatt_char` succeeds (else it raises `BleakError`). -/
  write_ok : Bool

/-- `_ensure_connected`: reuse a live cached client, otherwise resolve the
address (raising `BleakError` — the very class the retry loop catches —
when the device is not found) and establish a new connection.  `none` is a
raised `BleakError`; `fresh` numbers a newly established handle. -/
def ensure_connected (env : AttemptEnv) (fresh : Nat) (client : Option Nat) :
    Option Nat :=
  let resolve : Option Nat :=
    if env.device_found then
      (if env.connect_ok then some fresh else none)
    else none
  match client with
  | some c => if env.cached_connected then some c else resolve
  | none => resolve

/-- One iteration of the `send_command` retry loop: whether the write
succeeded, and the cached-client state afterwards (the `except BleakError`
handler sets `self._client = None` on any failure). -/
def send_attempt (env : AttemptEnv) (fresh : Nat) (client : Option Nat) :
    Bool × Option Nat :=
  match ensure_connected env fresh client with
  | none => (false, none)
  | some c => if env.write_ok then (true, some c) else (false, none)

/-- The `for attempt in range(3)` loop of `send_command`, run over the
per-attempt environments: returns (success, final cached client, trace of
the cached-client state at the end of each executed attempt).  When the
last environment also fails, the `BleakError` is re-raised (`raise` under
`attempt == 2`) with the client cleared. -/
def send_command : List AttemptEnv → Nat → Option Nat →
    Bool × Option Nat × List (Option Nat)
  | [], _, client => (false, client, [])
  | env :: rest, attempt, client =>
    match send_attempt env attempt client with
    | (true, c) => (true, c, [c])
    | (false, _) =>
      let next := send_command rest (attempt + 1) none
      (next.1, next.2.1, none :: next.2.2)

/-- An attempt whose write fails leaves the session disconnected, whatever
the cached handle and however far the attempt got. -/
theorem send_attempt_write_fail (env : AttemptEnv) (fresh : Nat)
    (cl : Option Nat) (hw : env.write_ok = false) :
    send_attempt env fresh cl = (false, none) := by
  unfold send_attempt ensure_connected
  rcases cl with _ | c
  · cases hdf : env.device_found <;> cases hco : env.connect_ok <;> simp [hw]
  · cases hcc : env.cached_connected <;> cases hdf : env.device_found <;>
      cases hco : env.connect_ok <;> simp [hw, hcc]

/-- An attempt whose address resolution fails (device not found) also just
fails, leaving the session disconnected. -/
theorem send_attempt_not_found (env : AttemptEnv) (fresh : Nat)
    (hd : env.device_found = false) :
    send_attempt env fresh none = (false, none) := by
  unfold send_attempt ensure_connected
  simp [hd]

/-- A fully healthy attempt from a disconnected session acquires the fresh
handle and succeeds. -/
theorem send_attempt_ok (env : AttemptEnv) (fresh : Nat)
    (hd : env.device_found = true) (hc : env.connect_ok = true)
    (hw : env.write_ok = true) :
    send_attempt env fresh none = (true, some fresh) := by
  unfold send_attempt ensure_connected
  simp [hd, hc, hw]

/-- C3: if the transport write fails on the first two attempts and succeeds
on the third (resolution and connection succeeding throughout), the call
returns success; the cached handle is invalidated (`none`) after each
failed attempt — as the trace records — and the successful write goes
through a freshly acquired handle (numbered 2, i.e. established in the 3rd
attempt, not any initial handle `c0`).  If all three writes fail, the error
is raised to the caller (`false`) and the session is left disconnected
(cached handle `none`). -/
theorem send_command_retry (c0 c0' : Option Nat) (e1 e2 e3 f1 f2 f3 : AttemptEnv)
    (h1 : e1.device_found = true) (h2 : e1.connect_ok = true)
    (h3 : e1.write_ok = false)
    (h4 : e2.device_found = true) (h5 : e2.connect_ok = true)
    (h6 : e2.write_ok = false)
    (h7 : e3.device_found = true) (h8 : e3.connect_ok = true)
    (h9 : e3.write_ok = true)
    (g1 : f1.write_ok = false) (g2 : f2.write_ok = false)
    (g3 : f3.write_ok = false) :
    send_command [e1, e2, e3] 0 c0 = (true, some 2, [none, none, some 2]) ∧
    send_command [f1, f2, f3] 0 c0' = (false, none, [none, none, none]) := by
  constructor
  · simp only [send_command, send_attempt_write_fail e1 0 c0 h3,
      send_attempt_write_fail e2 1 none h6, send_attempt_ok e3 2 h7 h8 h9]
  · simp only [send_command, send_attempt_write_fail f1 0 c0' g1,
      send_attempt_write_fail f2 1 none g2, send_attempt_write_fail f3 2 none g3]

/-- Witness for C3 at concrete attempt environments. -/
theorem send_command_retry_witness :
    send_command [⟨false, true, true, false⟩, ⟨false, true, true, false⟩,
        ⟨false, true, true, true⟩] 0 none
      = (true, some 2, [none, none, some 2]) ∧
    send_command [⟨false, true, true, false⟩, ⟨false, true, true, false⟩,
        ⟨true, true, true, false⟩] 0 (some 7)
      = (false, none, [none, none, none]) :=
  send_command_retry none (some 7) _ _ _ _ _ _
    rfl rfl rfl rfl rfl rfl rfl rfl rfl rfl rfl rfl

/-- C4 counterexample: an attempt whose address resolution fails raises
`BleakError("Device ... not found")`, which the retry loop catches like any
transport failure: with resolution failing on attempt 1 and the transport
healthy on attempt 2, `send_command` retries and reports success — the
DeviceNotFound condition did not propagate to the caller at all, contrary
to the claim that it propagates immediately without triggering the retry
loop. -/
theorem send_command_not_found_retried_cex :
    send_command [⟨false, false, true, true⟩, ⟨false, true, true, true⟩,
        ⟨false, true, true, true⟩] 0 none
      = (true, some 1, [none, some 1]) := by decide

/-- C4 amended: a device-not-found failure is raised as `BleakError` and is
therefore retried exactly like a transport-level failure, invalidating the
cached handle between attempts; it propagates to the caller only when all
3 attempts fail, leaving the session disconnected. -/
theorem send_command_not_found_amended (e1 e2 e3 f1 f2 f3 : AttemptEnv)
    (h1 : e1.device_found = false)
    (h4 : e2.device_found = true) (h5 : e2.connect_ok = true)
    (h6 : e2.write_ok = true)
    (g1 : f1.device_found = false) (g2 : f2.device_found = false)
    (g3 : f3.device_found = false) :
    send_command [e1, e2, e3] 0 none = (true, some 1, [none, some 1]) ∧
    send_command [f1, f2, f3] 0 none = (false, none, [none, none, none]) := by
  constructor
  · simp only [send_command, send_attempt_not_found e1 0 h1,
      send_attempt_ok e2 1 h4 h5 h6]
  · simp only [send_command, send_attempt_not_found f1 0 g1,
      send_attempt_not_found f2 1 g2, send_attempt_not_found f3 2 g3]

/-- Witness for the amended C4 at concrete attempt environments. -/
theorem send_command_not_found_amended_witness :
    send_command [⟨true, false, true, true⟩, ⟨false, true, true, true⟩,
        ⟨false, true, true, true⟩] 0 none
      = (true, some 1, [none, some 1]) ∧
    send_command [⟨false, false, true, true⟩, ⟨false, false, true, true⟩,
        ⟨false, false, false, true⟩] 0 none
      = (false, none, [none, none, none]) :=
  send_command_not_found_amended _ _ _ _ _ _ rfl rfl rfl rfl rfl rfl rfl

/-! ## Kelvin → RGB (`protocol.py`)

`kelvin_to_rgb` computes with Python floats (Tanner Helland algorithm); the
embedding uses exact real arithmetic.  Python's `int()` truncates toward
zero, and every channel value is nonnegative (each branch is a constant in
`[0, 255]` or explicitly clamped), so the truncation is `Int.floor`. -/

noncomputable def kelvin_to_rgb (kelvin : Int) : Int × Int × Int :=
  let kelvin := max 1000 (min 10000 kelvin)
  let temp : ℝ := (kelvin : ℝ) / 100
  let red : ℝ :=
    if temp ≤ 66 then 255
    else max 0 (min 255 (329.698727446 * (temp - 60) ^ (-0.1332047592 : ℝ)))
  let green : ℝ :=
    if temp ≤ 66 then 99.4708025861 * Real.log temp - 161.1195681661
    else 288.1221695283 * (temp - 60) ^ (-0.0755148492 : ℝ)
  let green : ℝ := max 0 (min 255 green)
  let blue : ℝ :=
    if 66 ≤ temp then 255
    else if temp ≤ 19 then 0
    else max 0 (min 255 (138.5177312231 * Real.log (temp - 10) - 305.0447927307))
  (⌊red⌋, ⌊green⌋, ⌊blue⌋)

theorem exp_three_lt_27 : Real.exp 3 < 27 := by
  have h3 : (3 : ℝ) = ((3 : ℕ) : ℝ) * 1 := by norm_num
  rw [h3, Real.exp_nat_mul]
  calc Real.exp 1 ^ 3 < 2.7182818286 ^ 3 :=
        pow_lt_pow_left₀ Real.exp_one_lt_d9 (Real.exp_pos 1).le (by norm_num)
    _ < 27 := by norm_num

theorem lt_exp_three_17 : (17 : ℝ) < Real.exp 3 := by
  have h3 : (3 : ℝ) = ((3 : ℕ) : ℝ) * 1 := by norm_num
  rw [h3, Real.exp_nat_mul]
  calc (17 : ℝ) < 2.7182818283 ^ 3 := by norm_num
    _ < Real.exp 1 ^ 3 :=
        pow_lt_pow_left₀ Real.exp_one_gt_d9 (by norm_num) (by norm_num)

theorem exp_four_lt_55 : Real.exp 4 < 55 := by
  have h4 : (4 : ℝ) = ((4 : ℕ) : ℝ) * 1 := by norm_num
  rw [h4, Real.exp_nat_mul]
  calc Real.exp 1 ^ 4 < 2.7182818286 ^ 4 :=
        pow_lt_pow_left₀ Real.exp_one_lt_d9 (Real.exp_pos 1).le (by norm_num)
    _ < 55 := by norm_num

theorem log_27_gt_3 : (3 : ℝ) < Real.log 27 := by
  rw [Real.lt_log_iff_exp_lt (by norm_num)]
  exact exp_three_lt_27

theorem log_17_lt_3 : Real.log 17 < 3 := by
  rw [Real.log_lt_iff_lt_exp (by norm_num)]
  exact lt_exp_three_17

theorem log_55_gt_4 : (4 : ℝ) < Real.log 55 := by
  rw [Real.lt_log_iff_exp_lt (by norm_num)]
  exact exp_four_lt_55

theorem floor_range_of_bounds (x : ℝ) (h0 : 0 ≤ x) (h255 : x ≤ 255) :
    0 ≤ ⌊x⌋ ∧ ⌊x⌋ ≤ 255 := by
  refine ⟨Int.floor_nonneg.mpr h0, ?_⟩
  calc ⌊x⌋ ≤ ⌊(255 : ℝ)⌋ := Int.floor_le_floor h255
    _ = 255 := by norm_num

theorem clamp_mem (x : ℝ) : 0 ≤ max 0 (min 255 x) ∧ max 0 (min 255 x) ≤ 255 :=
  ⟨le_max_left _ _, max_le (by norm_num) (le_trans (min_le_left _ _) le_rfl)⟩

set_option maxHeartbeats 1000000 in
/-- C8: `kelvin_to_rgb` (a function, hence deterministic; truncation of the
nonnegative channel values is `Int.floor` by construction) keeps every
channel in `[0, 255]` for every integer input — in particular for
out-of-range inputs such as 500 and 20000 — and at the reference points:
2700 K gives R = 255, G > 100 and B < G; 6500 K gives R = 255 and
B > 200. -/
theorem kelvin_to_rgb_range_and_values :
    (∀ kelvin : Int,
      0 ≤ (kelvin_to_rgb kelvin).1 ∧ (kelvin_to_rgb kelvin).1 ≤ 255 ∧
      0 ≤ (kelvin_to_rgb kelvin).2.1 ∧ (kelvin_to_rgb kelvin).2.1 ≤ 255 ∧
      0 ≤ (kelvin_to_rgb kelvin).2.2 ∧ (kelvin_to_rgb kelvin).2.2 ≤ 255) ∧
    (kelvin_to_rgb 2700).1 = 255 ∧
    100 < (kelvin_to_rgb 2700).2.1 ∧
    (kelvin_to_rgb 2700).2.2 < (kelvin_to_rgb 2700).2.1 ∧
    (kelvin_to_rgb 6500).1 = 255 ∧
    200 < (kelvin_to_rgb 6500).2.2 := by
  have h2700 : ((max 1000 (min 10000 (2700 : Int)) : Int) : ℝ) / 100 = 27 := by
    norm_num
  have h6500 : ((max 1000 (min 10000 (6500 : Int)) : Int) : ℝ) / 100 = 65 := by
    norm_num
  have hg27 : (137 : ℝ) ≤ max 0 (min 255 (99.4708025861 * Real.log 27 - 161.1195681661)) := by
    have hmul := mul_le_mul_of_nonneg_left log_27_gt_3.le
      (show (0 : ℝ) ≤ 99.4708025861 by norm_num)
    have hraw : (137 : ℝ) ≤ 99.4708025861 * Real.log 27 - 161.1195681661 := by
      linarith
    exact le_trans (le_min (by norm_num) hraw) (le_max_right _ _)
  have hb27 : max 0 (min 255 (138.5177312231 * Real.log (27 - 10) - 305.0447927307))
      ≤ 111 := by
    have hmul := mul_le_mul_of_nonneg_left log_17_lt_3.le
      (show (0 : ℝ) ≤ 138.5177312231 by norm_num)
    have hraw : 138.5177312231 * Real.log (27 - 10) - 305.0447927307 ≤ (111 : ℝ) := by
      rw [show (27 : ℝ) - 10 = 17 by norm_num]
      linarith
    exact max_le (by norm_num) (le_trans (min_le_right _ _) hraw)
  have hb65 : (201 : ℝ) ≤ max 0 (min 255 (138.5177312231 * Real.log (65 - 10) - 305.0447927307)) := by
    have hmul := mul_le_mul_of_nonneg_left log_55_gt_4.le
      (show (0 : ℝ) ≤ 138.5177312231 by norm_num)
    have hraw : (201 : ℝ) ≤ 138.5177312231 * Real.log (65 - 10) - 305.0447927307 := by
      rw [show (65 : ℝ) - 10 = 55 by norm_num]
      linarith
    exact le_trans (le_min (by norm_num) hraw) (le_max_right _ _)
  refine ⟨?_, ?_, ?_, ?_, ?_, ?_⟩
  · intro kelvin
    simp only [kelvin_to_rgb]
    refine ⟨?_, ?_, ?_, ?_, ?_, ?_⟩
    · split_ifs
      · exact (floor_range_of_bounds 255 (by norm_num) (by norm_num)).1
      · exact (floor_range_of_bounds _ (clamp_mem _).1 (clamp_mem _).2).1
    · split_ifs
      · exact (floor_range_of_bounds 255 (by norm_num) (by norm_num)).2
      · exact (floor_range_of_bounds _ (clamp_mem _).1 (clamp_mem _).2).2
    · exact (floor_range_of_bounds _ (clamp_mem _).1 (clamp_mem _).2).1
    · exact (floor_range_of_bounds _ (clamp_mem _).1 (clamp_mem _).2).2
    · split_ifs
      · exact (floor_range_of_bounds 255 (by norm_num) (by norm_num)).1
      · exact (floor_range_of_bounds 0 (by norm_num) (by norm_num)).1
      · exact (floor_range_of_bounds _ (clamp_mem _).1 (clamp_mem _).2).1
    · split_ifs
      · exact (floor_range_of_bounds 255 (by norm_num) (by norm_num)).2
      · exact (floor_range_of_bounds 0 (by norm_num) (by norm_num)).2
      · exact (floor_range_of_bounds _ (clamp_mem _).1 (clamp_mem _).2).2
  · simp only [kelvin_to_rgb]
    rw [h2700, if_pos (by norm_num : (27 : ℝ) ≤ 66)]
    norm_num
  · simp only [kelvin_to_rgb]
    rw [h2700, if_pos (by norm_num : (27 : ℝ) ≤ 66)]
    have := Int.le_floor.mpr (show ((137 : Int) : ℝ) ≤ _ from by exact_mod_cast hg27)
    omega
  · simp only [kelvin_to_rgb]
    rw [h2700, if_pos (by norm_num : (27 : ℝ) ≤ 66),
      if_neg (by norm_num : ¬ (66 : ℝ) ≤ 27), if_neg (by norm_num : ¬ (27 : ℝ) ≤ 19)]
    have hG := Int.le_floor.mpr (show ((137 : Int) : ℝ) ≤ _ from by exact_mod_cast hg27)
    have hB : ⌊max 0 (min 255 (138.5177312231 * Real.log (27 - 10) - 305.0447927307))⌋
        ≤ 111 := by
      calc ⌊max 0 (min 255 (138.5177312231 * Real.log (27 - 10) - 305.0447927307))⌋
          ≤ ⌊(111 : ℝ)⌋ := Int.floor_le_floor hb27
        _ = 111 := by norm_num
    omega
  · simp only [kelvin_to_rgb]
    rw [h6500, if_pos (by norm_num : (65 : ℝ) ≤ 66)]
    norm_num
  · simp only [kelvin_to_rgb]
    rw [h6500, if_neg (by norm_num : ¬ (66 : ℝ) ≤ 65),
      if_neg (by norm_num : ¬ (65 : ℝ) ≤ 19)]
    have := Int.le_floor.mpr (show ((201 : Int) : ℝ)
        ≤ max 0 (min 255 (138.5177312231 * Real.log (65 - 10) - 305.0447927307)) from by
      push_cast
      exact hb65)
    omega

end Govee
